import Mathlib

/-
Verification of the XRP price bot (src/xrpbot.py) against its
natural-language specification.

The embedding models the program over exact rationals and explicit
environments: every fallible external call (HTTP request, Discord API call)
is represented by its outcome, drawn from the documented alphabet of results
and raised exceptions of that call, and the functions of the program are
translated into Lean functions over those outcomes, producing event traces
where the program performs side effects.
-/

set_option maxHeartbeats 1000000

namespace XrpBot

/-- Python exception values relevant to the program. All constructors except
`cancelledError` model subclasses of Python `Exception`; `cancelledError`
models `asyncio.CancelledError`, which since Python 3.8 derives from
`BaseException` only and is therefore not caught by `except Exception`. -/
inductive PyExc where
  | runtimeError (msg : String)
  | keyError (key : String)
  | valueError (msg : String)
  | clientError (msg : String)
  | timeoutError
  | forbidden
  | httpException (msg : String)
  | cancelledError
  deriving DecidableEq

/-- Whether the exception is a subclass of Python `Exception`, i.e. whether a
bare `except Exception` handler catches it. -/
def isException : PyExc → Bool
  | .cancelledError => false
  | _ => true

/-- Whether the exception is caught by the handler
`except (aiohttp.ClientError, asyncio.TimeoutError, RuntimeError)`
in `get_price_data` (line 80 of src/xrpbot.py). -/
def caughtByFetchRetry : PyExc → Bool
  | .clientError _ => true
  | .timeoutError => true
  | .runtimeError _ => true
  | _ => false

/-- A JSON field value as consumed by `float(...)`: either a value that
`float` converts successfully (modelled by the exact rational it denotes), or
one on which `float` raises `ValueError` or `TypeError`. -/
inductive JsonField where
  | num (q : ℚ)
  | nonNumeric (txt : String)
  deriving DecidableEq

/-- The first-record fields of the CoinGecko markets response that
`_fetch_one_id` reads; `none` models an absent key, on which the subscript
`row[...]` raises `KeyError`. -/
structure MarketRow where
  current_price : Option JsonField
  price_change_percentage_24h : Option JsonField
  deriving DecidableEq

/-- The parsed JSON body of a response: either not a list at all, or a list
of records. -/
inductive MarketBody where
  | notAList
  | rows (l : List MarketRow)
  deriving DecidableEq

/-- The outcome of one HTTP request to the price API: either the request
itself raised (`aiohttp.ClientError` or `asyncio.TimeoutError`), or a
response with a status code and a body arrived. -/
inductive AttemptOutcome where
  | netError (e : PyExc)
  | response (status : ℕ) (body : MarketBody)
  deriving DecidableEq

/-- `_fetch_one_id` (lines 49-63 of src/xrpbot.py) applied to the outcome of
its single HTTP request: non-200 status raises `RuntimeError`, a body that is
not a non-empty list raises `RuntimeError`, a missing key raises `KeyError`,
a non-numeric field raises `ValueError`; otherwise the pair
(price, 24h change) is returned. -/
def fetchOneId (o : AttemptOutcome) : Except PyExc (ℚ × ℚ) :=
  match o with
  | .netError e => .error e
  | .response status body =>
    if status ≠ 200 then .error (.runtimeError ("HTTP " ++ toString status))
    else match body with
      | .notAList => .error (.runtimeError "empty or invalid payload")
      | .rows [] => .error (.runtimeError "empty or invalid payload")
      | .rows (row :: _) =>
        match row.current_price with
        | none => .error (.keyError "current_price")
        | some (.nonNumeric t) => .error (.valueError t)
        | some (.num price) =>
          match row.price_change_percentage_24h with
          | none => .error (.keyError "price_change_percentage_24h")
          | some (.nonNumeric t) => .error (.valueError t)
          | some (.num change) => .ok (price, change)

/-- The fixed backoff schedule `backoffs = [0, 1.5, 3.0, 5.0]`
(line 68 of src/xrpbot.py), in seconds. -/
def backoffs : List ℚ := [0, mkRat 3 2, 3, 5]

/-- How the inner retry loop of `get_price_data` leaves one source:
a successful return, an uncaught exception propagating, or all attempts of
this source failed with caught (recoverable) errors. -/
inductive SourceStep where
  | returned (price change : ℚ)
  | raised (e : PyExc)
  | exhaustedSrc
  deriving DecidableEq

/-- The inner loop `for attempt, delay in enumerate(backoffs, start=1)` of
`get_price_data` (lines 72-82 of src/xrpbot.py) for one coin id.
`fetch i` is the result of `_fetch_one_id` on attempt index `i` (0-based).
Returns the step outcome, the number of attempts made, the list of sleeps
performed (a sleep of `d` happens before an attempt whenever its delay `d`
is nonzero), and the final value of `last_err`. -/
def runSourceAux (fetch : ℕ → Except PyExc (ℚ × ℚ)) :
    List ℚ → ℕ → Option PyExc → SourceStep × ℕ × List ℚ × Option PyExc
  | [], _, lastErr => (.exhaustedSrc, 0, [], lastErr)
  | d :: ds, idx, lastErr =>
    let sl : List ℚ := if d ≠ 0 then [d] else []
    match fetch idx with
    | .ok pc => (.returned pc.1 pc.2, 1, sl, lastErr)
    | .error e =>
      if caughtByFetchRetry e then
        let r := runSourceAux fetch ds (idx + 1) (some e)
        (r.1, r.2.1 + 1, sl ++ r.2.2.1, r.2.2.2)
      else (.raised e, 1, sl, lastErr)

/-- The overall result of `get_price_data`: a successful pair, the terminal
`raise RuntimeError("Failed to fetch XRP price after retries: ...")` wrapping
the final value of `last_err`, or an uncaught exception escaping the
function. -/
inductive FetchOutcome where
  | success (price change : ℚ)
  | exhausted (lastErr : Option PyExc)
  | escaped (e : PyExc)
  deriving DecidableEq

/-- The outer loop `for coin_id in COIN_IDS` of `get_price_data`
(lines 71-84 of src/xrpbot.py). `env c i` is the outcome of the HTTP request
for coin id `c` on attempt index `i`. Returns the fetch outcome, the total
number of attempts, the sleeps performed, and whether the success came from
a non-primary id (the fallback log of line 78). -/
def getPriceDataAux (env : String → ℕ → AttemptOutcome) (primary : String) :
    List String → Option PyExc → FetchOutcome × ℕ × List ℚ × Bool
  | [], lastErr => (.exhausted lastErr, 0, [], false)
  | cid :: rest, lastErr =>
    let r := runSourceAux (fun i => fetchOneId (env cid i)) backoffs 0 lastErr
    match r.1 with
    | .returned p c => (.success p c, r.2.1, r.2.2.1, decide (cid ≠ primary))
    | .raised e => (.escaped e, r.2.1, r.2.2.1, false)
    | .exhaustedSrc =>
      let r2 := getPriceDataAux env primary rest r.2.2.2
      (r2.1, r.2.1 + r2.2.1, r.2.2.1 ++ r2.2.2.1, r2.2.2.2)

/-- `get_price_data` (lines 66-84 of src/xrpbot.py), over the candidate list
`coinIds` (the runtime value of `COIN_IDS`) and the request environment. -/
def getPriceData (coinIds : List String) (env : String → ℕ → AttemptOutcome) :
    FetchOutcome × ℕ × List ℚ × Bool :=
  getPriceDataAux env (coinIds.headD "") coinIds none

/-- Whether an attempt result is a recoverable failure: an error belonging to
the exception classes caught by the retry loop. -/
def recoverableError (r : Except PyExc (ℚ × ℚ)) : Bool :=
  match r with
  | .error e => caughtByFetchRetry e
  | .ok _ => false

/-- The error of a failed attempt, if any. -/
def errOf (r : Except PyExc (ℚ × ℚ)) : Option PyExc :=
  match r with
  | .error e => some e
  | .ok _ => none

/-- Round-half-even of the fraction `n / d` (for `d > 0`), the rounding that
CPython fixed-point formatting applies. Written over the numerator and
denominator with integer operations only: `f` is the floor of the fraction,
`r2` is twice the remainder numerator, compared against `d` to decide the
direction; an exact half rounds to the even integer. -/
def rheND (n d : ℤ) : ℤ :=
  let f := n.fdiv d
  let r2 := 2 * (n - f * d)
  if r2 < d then f
  else if d < r2 then f + 1
  else if f % 2 = 0 then f else f + 1

/-- Decimal digits of a natural number padded on the left with zeros to
width 2. -/
def pad2 (n : ℕ) : String :=
  if n < 10 then "0" ++ toString n else toString n

/-- Decimal digits of a natural number padded on the left with zeros to
width 3. -/
def pad3 (n : ℕ) : String :=
  if n < 10 then "00" ++ toString n
  else if n < 100 then "0" ++ toString n
  else toString n

/-- Models the Python format specifier `:.3f` on the exact rational: the
magnitude is scaled by 1000, rounded half-even, and printed with the sign of
the value. -/
def fmt3 (q : ℚ) : String :=
  let n := (rheND ((q.num.natAbs : ℤ) * 1000) (q.den : ℤ)).toNat
  (if q < 0 then "-" else "") ++ toString (n / 1000) ++ "." ++ pad3 (n % 1000)

/-- Models the Python format specifier `:+.2f` on the exact rational: the
magnitude is scaled by 100, rounded half-even, and printed with an explicit
sign. -/
def fmtSigned2 (q : ℚ) : String :=
  let n := (rheND ((q.num.natAbs : ℤ) * 100) (q.den : ℤ)).toNat
  (if q < 0 then "-" else "+") ++ toString (n / 100) ++ "." ++ pad2 (n % 100)

/-- Line 111 of src/xrpbot.py: the green marker when the 24h change is
nonnegative, the red marker when it is negative. -/
def emojiFor (change : ℚ) : String :=
  if 0 ≤ change then "🟢" else "🔴"

/-- Line 112 of src/xrpbot.py: the nickname format string. -/
def formatNickname (price change : ℚ) : String :=
  "$" ++ fmt3 price ++ " " ++ emojiFor change

/-- Lines 113-114 of src/xrpbot.py: truncate the nickname to its first 32
characters when it is longer than 32 characters (Python string slicing on
code points; total, never raises). -/
def truncateNick (s : String) : String :=
  if s.length > 32 then String.mk (s.data.take 32) else s

/-- Log severities of the `logging` module used by the program. -/
inductive LogLevel where
  | debug
  | info
  | warning
  | error
  deriving DecidableEq

/-- Numeric severity, ordered as in the `logging` module. -/
def LogLevel.sev : LogLevel → ℕ
  | .debug => 0
  | .info => 1
  | .warning => 2
  | .error => 3

/-- Observable side effects of the program. `presence` carries no guild
identifier because `client.change_presence` updates the one client-wide
presence shared by every community; the `Bool` on `nickEdit` and `presence`
records whether the call succeeded. -/
inductive Event where
  | log (lvl : LogLevel) (msg : String)
  | fetchPriceCall
  | nickEdit (nick reason : String) (succeeded : Bool)
  | presence (status : String) (succeeded : Bool)
  | tickSleep (secs : ℕ)
  deriving DecidableEq

/-- The permission bits of the bot member that `update_guild` inspects
(line 96 of src/xrpbot.py). -/
structure Perms where
  change_nickname : Bool
  manage_nicknames : Bool
  deriving DecidableEq

/-- Outcome of resolving the bot member (`guild.me or await
guild.fetch_member(...)`, line 90): the member with its permissions, or a
`discord.HTTPException` (the documented raisable class of `fetch_member`,
every subclass included). -/
inductive MemberRes where
  | ok (perms : Perms)
  | httpExc (msg : String)
  deriving DecidableEq

/-- Outcome of `me.edit(nick=..., reason=...)` (line 117): success,
`discord.Forbidden`, or another `discord.HTTPException` (the documented
raisable classes of `Member.edit`). -/
inductive NickEditRes where
  | ok
  | forbidden
  | httpExc (msg : String)
  deriving DecidableEq

/-- Outcome of `client.change_presence(...)`: success, or some raised
`Exception` (both call sites wrap it in a bare `except Exception`). -/
inductive PresenceRes where
  | ok
  | exc (msg : String)
  deriving DecidableEq

/-- The environment of one `update_guild` call: the guild name, the outcome
of every external call the function can make. `fetch` is the outcome of the
`get_price_data` call the function itself performs (line 102). -/
structure GuildEnv where
  name : String
  member : MemberRes
  fetch : FetchOutcome
  nickEdit : NickEditRes
  presenceOnFetchFail : PresenceRes
  presenceOnSuccess : PresenceRes
  deriving DecidableEq

/-- Rendering of an exception by `str(e)` in a log f-string (the exact text
is irrelevant to the claims; what matters is which events occur). -/
def excMsg : PyExc → String
  | .runtimeError m => m
  | .keyError k => k
  | .valueError m => m
  | .clientError m => m
  | .timeoutError => "TimeoutError"
  | .forbidden => "Forbidden"
  | .httpException m => m
  | .cancelledError => "CancelledError"

/-- Message of the terminal `RuntimeError` of `get_price_data` (line 84),
wrapping the final value of `last_err`. -/
def exhaustedMsg (le : Option PyExc) : String :=
  "Failed to fetch XRP price after retries: " ++
    (match le with
     | some e => excMsg e
     | none => "None")

/-- The `client.change_presence` attempt of the fetch-failure path
(lines 105-108): the call happens, and a raised exception is swallowed by
`except Exception: pass` with no log. -/
def presenceAttempt (text : String) : PresenceRes → List Event
  | .ok => [Event.presence text true]
  | .exc _ => [Event.presence text false]

/-- Events of the success path of `update_guild` (lines 111-128): format and
truncate the nickname, attempt the nickname edit (`Forbidden` is logged at
info, other `HTTPException` at warning), attempt the presence update (a
failure is logged at debug), then the final info log. -/
def successEvents (name : String) (ne : NickEditRes) (ps : PresenceRes)
    (price change : ℚ) : List Event :=
  let nickname := truncateNick (formatNickname price change)
  (match ne with
   | .ok => [Event.nickEdit nickname "Auto price update" true]
   | .forbidden =>
     [Event.nickEdit nickname "Auto price update" false,
      Event.log .info
        ("[" ++ name ++ "] Forbidden: role hierarchy/permissions block nickname change.")]
   | .httpExc m =>
     [Event.nickEdit nickname "Auto price update" false,
      Event.log .warning ("[" ++ name ++ "] HTTP error updating nick: " ++ m)])
  ++ (match ps with
      | .ok => [Event.presence ("24h " ++ fmtSigned2 change ++ "%") true]
      | .exc m =>
        [Event.presence ("24h " ++ fmtSigned2 change ++ "%") false,
         Event.log .debug ("[" ++ name ++ "] Could not set presence: " ++ m)])
  ++ [Event.log .info
       ("[" ++ name ++ "] Nick → " ++ nickname ++ " | 24h → " ++ fmtSigned2 change ++ "%")]

/-- `update_guild` (lines 88-128 of src/xrpbot.py) as a function from its
call environment to the list of events it performs and the exception
escaping it, if any (`none` means the call returns normally). The
`except Exception` around the price fetch catches every `Exception` but not
`asyncio.CancelledError`, which would propagate. -/
def updateGuildRun (g : GuildEnv) : List Event × Option PyExc :=
  match g.member with
  | .httpExc m =>
    ([Event.log .warning ("[" ++ g.name ++ "] Could not fetch bot member: " ++ m)], none)
  | .ok perms =>
    if perms.change_nickname || perms.manage_nicknames then
      match g.fetch with
      | .success price change =>
        (Event.fetchPriceCall ::
           successEvents g.name g.nickEdit g.presenceOnSuccess price change, none)
      | .exhausted le =>
        (Event.fetchPriceCall ::
           Event.log .warning ("[" ++ g.name ++ "] Price fetch failed: " ++ exhaustedMsg le) ::
           presenceAttempt "API error" g.presenceOnFetchFail, none)
      | .escaped e =>
        if isException e then
          (Event.fetchPriceCall ::
             Event.log .warning ("[" ++ g.name ++ "] Price fetch failed: " ++ excMsg e) ::
             presenceAttempt "API error" g.presenceOnFetchFail, none)
        else ([Event.fetchPriceCall], some e)
    else
      ([Event.log .info
         ("[" ++ g.name ++ "] Missing permission: Change Nickname (or Manage Nicknames).")], none)

/-- The environment of one iteration of `updater_loop`: the configured
`GUILD_ID`, the result of `client.get_guild(GUILD_ID)`, and `client.guilds`
(each joined guild given by the environment its reconciliation will see). -/
structure TickEnv where
  guildIdCfg : Option ℤ
  getGuildResult : Option GuildEnv
  clientGuilds : List GuildEnv
  deriving DecidableEq

/-- Python truthiness of the `if GUILD_ID:` test (line 137): an unset id and
the integer 0 are both falsy. -/
def truthyGuildId : Option ℤ → Bool
  | none => false
  | some n => decide (n ≠ 0)

/-- Target resolution of `updater_loop` (lines 137-143): the resolved target
list and the events logged while resolving. -/
def resolveTargets (t : TickEnv) : List GuildEnv × List Event :=
  if truthyGuildId t.guildIdCfg then
    match t.getGuildResult with
    | some g => ([g], [])
    | none =>
      ([], [Event.log .info "Configured GUILD_ID not found yet. Is the bot in that server?"])
  else (t.clientGuilds, [])

/-- Sequentialized model of `await asyncio.gather(*(update_guild(g) for g in
targets))` (line 148) with the default `return_exceptions=False`: traces of
the reconciliations are concatenated, and the first escaping exception is
propagated out of the `await`. (Interleaving of the concurrent coroutines
and the fate of siblings after a propagated exception are event-loop
scheduling behavior outside this sequential model.) -/
def gatherRun : List GuildEnv → List Event × Option PyExc
  | [] => ([], none)
  | g :: gs =>
    let r := updateGuildRun g
    match r.2 with
    | some e => (r.1, some e)
    | none =>
      let r2 := gatherRun gs
      (r.1 ++ r2.1, r2.2)

/-- One tick of `updater_loop` (lines 137-148): resolve targets, log and
skip when the target list is empty, otherwise fan out `update_guild` over
all targets. -/
def tickRun (t : TickEnv) : List Event × Option PyExc :=
  let r := resolveTargets t
  if r.1.isEmpty then (r.2 ++ [Event.log .info "No guilds to update yet."], none)
  else
    let r2 := gatherRun r.1
    (r.2 ++ r2.1, r2.2)

/-- The loop-body boundary of `updater_loop` (lines 136-152): the
`try/except Exception` around the tick, the error log, and the
unconditional inter-tick sleep. Takes the outcome of the tick computation
(its events and the exception escaping it, if any) and returns the events of
the whole iteration together with whether the loop continues to the next
tick. An escaping `Exception` is caught and logged and the loop continues; a
`BaseException` such as `asyncio.CancelledError` propagates and ends the
loop. -/
def loopStep (tick : List Event × Option PyExc) (interval : ℕ) : List Event × Bool :=
  match tick.2 with
  | none => (tick.1 ++ [Event.tickSleep interval], true)
  | some e =>
    if isException e then
      (tick.1 ++ [Event.log .error ("Updater loop error: " ++ excMsg e),
                  Event.tickSleep interval], true)
    else (tick.1, false)

/-- One full iteration of the running `updater_loop` over its environment. -/
def loopIteration (t : TickEnv) (interval : ℕ) : List Event × Bool :=
  loopStep (tickRun t) interval

/-- Number of `get_price_data` invocations recorded in a trace. -/
def countFetch (tr : List Event) : ℕ :=
  tr.countP fun e =>
    match e with
    | .fetchPriceCall => true
    | _ => false

/-- The presence-update calls of a trace, with their status text and whether
they succeeded. -/
def presenceList (tr : List Event) : List (String × Bool) :=
  tr.filterMap fun e =>
    match e with
    | .presence s ok => some (s, ok)
    | _ => none

/-- The status texts of the successful presence writes of a trace, in
order. -/
def succWrites (tr : List Event) : List String :=
  tr.filterMap fun e =>
    match e with
    | .presence s true => some s
    | _ => none

/-- The client-wide presence after running a trace from an initial presence:
every successful `change_presence` call overwrites the single shared
value. -/
def applyPresence (init : Option String) (tr : List Event) : Option String :=
  tr.foldl
    (fun st e =>
      match e with
      | .presence s true => some s
      | _ => st)
    init

/-- Whether the reconciliation of this guild gets past the member resolution
and permission checks, i.e. reaches the price fetch (lines 88-98). -/
def guildReachesFetch (g : GuildEnv) : Bool :=
  match g.member with
  | .ok p => p.change_nickname || p.manage_nicknames
  | .httpExc _ => false

/-- Whether the outcome of the price fetch of this environment is not an
escaping `asyncio.CancelledError` (cooperative shutdown); every other
outcome is a normal result or an `Exception`. -/
def noCancelEscape (g : GuildEnv) : Bool :=
  match g.fetch with
  | .escaped e => isException e
  | _ => true

/-! ## Helper lemmas -/

theorem truncateNick_length_le (s : String) : (truncateNick s).length ≤ 32 := by
  unfold truncateNick
  by_cases h : s.length > 32
  · rw [if_pos h]
    show (s.data.take 32).length ≤ 32
    rw [List.length_take]
    exact min_le_left _ _
  · rw [if_neg h]
    exact Nat.le_of_not_lt h

theorem truncateNick_length_eq (s : String) (h : 32 < s.length) :
    (truncateNick s).length = 32 := by
  unfold truncateNick
  rw [if_pos h]
  show (s.data.take 32).length = 32
  rw [List.length_take]
  exact min_eq_left (Nat.le_of_lt h)

/-! ## Claims C4 to C7 -/

/-- Claim C4: the nickname is formatted as a dollar sign, the price rounded
to 3 decimal places, a space, and a sign marker; a nonnegative 24h change
yields the up marker and a negative change the down marker; price 1.23456
with change +2.50 yields the up example and price 0.5 with change -3.10 the
down example. -/
theorem nickname_format_c4 :
    (∀ p c : ℚ, 0 ≤ c → formatNickname p c = "$" ++ fmt3 p ++ " " ++ "🟢")
    ∧ (∀ p c : ℚ, c < 0 → formatNickname p c = "$" ++ fmt3 p ++ " " ++ "🔴")
    ∧ formatNickname (mkRat 123456 100000) (mkRat 5 2) = "$1.235 🟢"
    ∧ formatNickname (mkRat 1 2) (mkRat (-31) 10) = "$0.500 🔴" := by
  refine ⟨?_, ?_, by decide, by decide⟩
  · intro p c h
    unfold formatNickname emojiFor
    rw [if_pos h]
  · intro p c h
    unfold formatNickname emojiFor
    rw [if_neg (not_le.mpr h)]

/-- Witness for C4 at a concrete input. -/
theorem nickname_format_c4_witness :
    formatNickname 1 0 = "$" ++ fmt3 1 ++ " " ++ "🟢" :=
  nickname_format_c4.1 1 0 le_rfl

/-- Claim C6: a target whose resolved membership has neither permission
produces exactly one informational log and nothing else: no nickname edit,
no presence call, no price fetch, and no escaping exception. -/
theorem no_permission_noop_c6 :
    ∀ (name : String) (fetch : FetchOutcome) (ne : NickEditRes) (pf ps : PresenceRes),
      updateGuildRun ⟨name, .ok ⟨false, false⟩, fetch, ne, pf, ps⟩ =
        ([Event.log .info
           ("[" ++ name ++ "] Missing permission: Change Nickname (or Manage Nicknames).")],
         none) := by
  intro name fetch ne pf ps
  rfl

/-- Claim C7: `update_guild` never lets an exception escape, for every
environment in which the price fetch does not escape with a cooperative
cancellation (the only modelled `BaseException`); all failure paths
terminate inside the call. -/
theorem reconcile_never_raises_c7 :
    ∀ g : GuildEnv, noCancelEscape g = true → (updateGuildRun g).2 = none := by
  intro g h
  obtain ⟨name, member, fetch, ne, pf, ps⟩ := g
  cases member with
  | httpExc m => rfl
  | ok perms =>
    cases hb : (perms.change_nickname || perms.manage_nicknames) with
    | false => simp [updateGuildRun, hb]
    | true =>
      cases fetch with
      | success p c => simp [updateGuildRun, hb]
      | exhausted le => simp [updateGuildRun, hb]
      | escaped e =>
        simp only [noCancelEscape] at h
        simp [updateGuildRun, hb, h]

/-- Witness for C7 at a concrete environment. -/
theorem reconcile_never_raises_c7_witness :
    (updateGuildRun ⟨"g", .ok ⟨true, true⟩, .success 1 1, .ok, .ok, .ok⟩).2 = none :=
  reconcile_never_raises_c7 ⟨"g", .ok ⟨true, true⟩, .success 1 1, .ok, .ok, .ok⟩ rfl

/-- Claim C5: truncation yields a nickname of at most 32 characters (exactly
32 when the formatted string is longer), it is a total function, and every
nickname-edit call in any reconciliation trace carries a nickname of at most
32 characters. -/
theorem nickname_truncation_c5 :
    (∀ s : String,
      (truncateNick s).length ≤ 32 ∧ (32 < s.length → (truncateNick s).length = 32))
    ∧ (∀ (g : GuildEnv) (n r : String) (b : Bool),
        Event.nickEdit n r b ∈ (updateGuildRun g).1 → n.length ≤ 32) := by
  refine ⟨fun s => ⟨truncateNick_length_le s, truncateNick_length_eq s⟩, ?_⟩
  intro g n r b hmem
  obtain ⟨name, member, fetch, ne, pf, ps⟩ := g
  cases member with
  | httpExc m => simp [updateGuildRun] at hmem
  | ok perms =>
    cases hb : (perms.change_nickname || perms.manage_nicknames) with
    | false => simp [updateGuildRun, hb] at hmem
    | true =>
      cases fetch with
      | success p c =>
        simp only [updateGuildRun, hb, if_true, List.mem_cons] at hmem
        rcases hmem with hmem | hmem
        · exact absurd hmem (by simp)
        · cases ne <;> cases ps <;> simp [successEvents] at hmem <;>
            obtain ⟨h1, h2, h3⟩ := hmem <;> exact h1 ▸ truncateNick_length_le _
      | exhausted le =>
        cases pf <;> simp [updateGuildRun, hb, presenceAttempt] at hmem
      | escaped e =>
        cases hie : isException e <;> cases pf <;>
          simp [updateGuildRun, hb, hie, presenceAttempt] at hmem

/-- Witness for C5 at a concrete overlong string. -/
theorem nickname_truncation_c5_witness :
    (truncateNick "0123456789012345678901234567890123456789").length = 32 :=
  (nickname_truncation_c5.1 "0123456789012345678901234567890123456789").2 (by decide)

/-! ## Claims C2 and C3 -/

/-- Counterexample to claim C2 as stated: when the first record of a 200
response lacks the price field, `get_price_data` neither records the error as
`last_err` nor continues to the next attempt or source; the `KeyError`
escapes after exactly one attempt. -/
theorem missing_field_escapes_c2_counterexample :
    getPriceData ["ripple", "xrp"] (fun _ _ => .response 200 (.rows [⟨none, none⟩]))
      = (.escaped (.keyError "current_price"), 1, [], false) := by
  decide

/-- Claim C2 as amended: a missing or non-numeric price field in the first
record raises `KeyError` or `ValueError`, which is not among the classes the
retry loop catches, so the error escapes `get_price_data` immediately after
that single attempt instead of being recorded and retried. -/
theorem field_error_escapes_c2 :
    (∀ (c : String) (rest : List String) (env : String → ℕ → AttemptOutcome) (e : PyExc),
        fetchOneId (env c 0) = .error e → caughtByFetchRetry e = false →
        getPriceData (c :: rest) env = (.escaped e, 1, [], false))
    ∧ (∀ (tail : List MarketRow) (ch : Option JsonField),
        fetchOneId (.response 200 (.rows (⟨none, ch⟩ :: tail)))
            = .error (.keyError "current_price")
        ∧ caughtByFetchRetry (.keyError "current_price") = false) := by
  constructor
  · intro c rest env e h1 h2
    simp [getPriceData, getPriceDataAux, runSourceAux, backoffs, h1, h2]
  · intro tail ch
    exact ⟨rfl, rfl⟩

/-- Witness for the amended C2 at a concrete input with a non-numeric price
field. -/
theorem field_error_escapes_c2_witness :
    getPriceData ["ripple", "xrp"]
        (fun _ _ => .response 200 (.rows [⟨some (.nonNumeric "abc"), some (.num 0)⟩]))
      = (.escaped (.valueError "abc"), 1, [], false) :=
  field_error_escapes_c2.1 "ripple" ["xrp"]
    (fun _ _ => .response 200 (.rows [⟨some (.nonNumeric "abc"), some (.num 0)⟩]))
    (.valueError "abc") rfl rfl


theorem runSourceAux_cons (fetch : ℕ → Except PyExc (ℚ × ℚ)) (d : ℚ) (ds : List ℚ)
    (idx : ℕ) (lastErr : Option PyExc) :
    runSourceAux fetch (d :: ds) idx lastErr =
      (let sl : List ℚ := if d ≠ 0 then [d] else []
       match fetch idx with
       | .ok pc => (.returned pc.1 pc.2, 1, sl, lastErr)
       | .error e =>
         if caughtByFetchRetry e then
           let r := runSourceAux fetch ds (idx + 1) (some e)
           (r.1, r.2.1 + 1, sl ++ r.2.2.1, r.2.2.2)
         else (.raised e, 1, sl, lastErr)) := rfl

theorem runSourceAux_allFail (fetch : ℕ → Except PyExc (ℚ × ℚ)) :
    ∀ (delays : List ℚ) (idx : ℕ) (lastErr : Option PyExc), delays ≠ [] →
    (∀ k < delays.length, recoverableError (fetch (idx + k)) = true) →
    runSourceAux fetch delays idx lastErr =
      (.exhaustedSrc, delays.length, delays.filter (fun d => decide (d ≠ 0)),
       errOf (fetch (idx + delays.length - 1))) := by
  intro delays
  induction delays with
  | nil => intro idx lastErr h _; exact absurd rfl h
  | cons d ds ih =>
    intro idx lastErr _ hf
    have h0 : recoverableError (fetch idx) = true := hf 0 (by simp)
    cases hfe : fetch idx with
    | ok v => rw [hfe] at h0; simp [recoverableError] at h0
    | error e =>
      rw [hfe] at h0
      have hc : caughtByFetchRetry e = true := h0
      cases ds with
      | nil =>
        rw [runSourceAux_cons, hfe]
        simp only [hc, if_true, runSourceAux, Prod.mk.injEq]
        refine ⟨trivial, by simp, ?_, ?_⟩
        · by_cases hd : d = 0 <;> simp [hd]
        · rw [show idx + [d].length - 1 = idx from by simp, hfe]
          rfl
      | cons d2 ds2 =>
        have hne2 : (d2 :: ds2) ≠ [] := by simp
        have hf2 : ∀ k < (d2 :: ds2).length,
            recoverableError (fetch (idx + 1 + k)) = true := by
          intro k hk
          have hk' : k + 1 < (d :: d2 :: ds2).length := by
            simp only [List.length_cons] at hk ⊢; omega
          have := hf (k + 1) hk'
          rwa [show idx + (k + 1) = idx + 1 + k by omega] at this
        have ihr := ih (idx + 1) (some e) hne2 hf2
        rw [runSourceAux_cons, hfe]
        simp only [hc, if_true, ihr, Prod.mk.injEq]
        refine ⟨trivial, by simp, ?_, ?_⟩
        · by_cases hd : d = 0 <;> simp [hd, List.filter_cons]
        · rw [show idx + 1 + (d2 :: ds2).length - 1 = idx + (d :: d2 :: ds2).length - 1
            from by simp only [List.length_cons]; omega]

theorem getPriceDataAux_cons (env : String → ℕ → AttemptOutcome) (primary cid : String)
    (rest : List String) (lastErr : Option PyExc) :
    getPriceDataAux env primary (cid :: rest) lastErr =
      (let r := runSourceAux (fun i => fetchOneId (env cid i)) backoffs 0 lastErr
       match r.1 with
       | .returned p c => (.success p c, r.2.1, r.2.2.1, decide (cid ≠ primary))
       | .raised e => (.escaped e, r.2.1, r.2.2.1, false)
       | .exhaustedSrc =>
         let r2 := getPriceDataAux env primary rest r.2.2.2
         (r2.1, r.2.1 + r2.2.1, r.2.2.1 ++ r2.2.2.1, r2.2.2.2)) := rfl

theorem getPriceDataAux_allFail (env : String → ℕ → AttemptOutcome) (primary : String) :
    ∀ (coinIds : List String) (lastErr : Option PyExc) (h : coinIds ≠ []),
    (∀ c ∈ coinIds, ∀ i < backoffs.length, recoverableError (fetchOneId (env c i)) = true) →
    getPriceDataAux env primary coinIds lastErr =
      (.exhausted (errOf (fetchOneId (env (coinIds.getLast h) (backoffs.length - 1)))),
       coinIds.length * backoffs.length,
       (coinIds.map fun _ => backoffs.filter fun d => decide (d ≠ 0)).flatten,
       false) := by
  intro coinIds
  induction coinIds with
  | nil => intro lastErr h _; exact absurd rfl h
  | cons c rest ih =>
    intro lastErr h hf
    have hsrc := runSourceAux_allFail (fun i => fetchOneId (env c i)) backoffs 0 lastErr
      (by decide) (fun k hk => by simpa using hf c (by simp) k hk)
    cases rest with
    | nil =>
      rw [getPriceDataAux_cons]
      simp only [hsrc, getPriceDataAux, Prod.mk.injEq]
      refine ⟨?_, by simp, by simp, trivial⟩
      rw [show ([c].getLast (by simp) : String) = c from rfl]
      rw [show (0 : ℕ) + backoffs.length - 1 = backoffs.length - 1 from by omega]
    | cons c2 rest2 =>
      have hne2 : (c2 :: rest2) ≠ [] := by simp
      have hf2 : ∀ x ∈ c2 :: rest2, ∀ i < backoffs.length,
          recoverableError (fetchOneId (env x i)) = true := by
        intro x hx i hi
        exact hf x (by simp [hx]) i hi
      have ihr := ih (errOf (fetchOneId (env c (0 + backoffs.length - 1)))) hne2 hf2
      rw [getPriceDataAux_cons]
      simp only [hsrc, ihr, Prod.mk.injEq]
      refine ⟨?_, by simp only [List.length_cons]; ring, by simp, trivial⟩
      rw [List.getLast_cons hne2]

/-- Claim C3: when every source fails every attempt with a recoverable
error, `get_price_data` ends with the terminal `RuntimeError` wrapping the
error of the last attempt made, the total number of attempts equals the
number of sources times the length of the backoff schedule, and the sleeps
performed are, per source, exactly the nonzero schedule entries (none before
a first attempt). -/
theorem all_sources_exhausted_c3 (coinIds : List String)
    (env : String → ℕ → AttemptOutcome) (h : coinIds ≠ [])
    (hf : ∀ c ∈ coinIds, ∀ i < backoffs.length,
      recoverableError (fetchOneId (env c i)) = true) :
    getPriceData coinIds env =
      (.exhausted (errOf (fetchOneId (env (coinIds.getLast h) (backoffs.length - 1)))),
       coinIds.length * backoffs.length,
       (coinIds.map fun _ => backoffs.filter fun d => decide (d ≠ 0)).flatten,
       false) :=
  getPriceDataAux_allFail env (coinIds.headD "") coinIds none h hf

/-- Witness for C3 at a concrete environment where every request returns
HTTP 500: two sources, eight attempts, six sleeps, terminal error wrapping
the last HTTP 500. -/
theorem all_sources_exhausted_c3_witness :
    getPriceData ["ripple", "xrp"] (fun _ _ => .response 500 (.rows []))
      = (.exhausted (some (.runtimeError "HTTP 500")), 8,
         [mkRat 3 2, 3, 5, mkRat 3 2, 3, 5], false) := by
  have := all_sources_exhausted_c3 ["ripple", "xrp"]
    (fun _ _ => .response 500 (.rows [])) (by decide) (by decide)
  exact this



theorem countFetch_append (a b : List Event) :
    countFetch (a ++ b) = countFetch a + countFetch b :=
  List.countP_append _ _ _

theorem countFetch_successEvents (name : String) (ne : NickEditRes) (ps : PresenceRes)
    (p c : ℚ) : countFetch (successEvents name ne ps p c) = 0 := by
  cases ne <;> cases ps <;> simp [successEvents, countFetch]

theorem countFetch_updateGuildRun (g : GuildEnv) :
    countFetch (updateGuildRun g).1 = if guildReachesFetch g then 1 else 0 := by
  obtain ⟨name, member, fetch, ne, pf, ps⟩ := g
  cases member with
  | httpExc m => simp [updateGuildRun, guildReachesFetch, countFetch]
  | ok perms =>
    cases hb : (perms.change_nickname || perms.manage_nicknames) with
    | false => simp [updateGuildRun, guildReachesFetch, hb, countFetch]
    | true =>
      cases fetch with
      | success p c =>
        have h2 := countFetch_successEvents name ne ps p c
        simp only [updateGuildRun, hb, if_true, guildReachesFetch]
        rw [show Event.fetchPriceCall :: successEvents name ne ps p c
            = [Event.fetchPriceCall] ++ successEvents name ne ps p c from rfl,
          countFetch_append, h2]
        rfl
      | exhausted le =>
        cases pf <;>
          simp [updateGuildRun, guildReachesFetch, hb, countFetch, presenceAttempt]
      | escaped e =>
        cases hie : isException e <;> cases pf <;>
          simp [updateGuildRun, guildReachesFetch, hb, hie, countFetch, presenceAttempt]

theorem countFetch_gatherRun (gs : List GuildEnv)
    (h : ∀ g ∈ gs, (updateGuildRun g).2 = none) :
    countFetch (gatherRun gs).1 = (gs.filter guildReachesFetch).length
    ∧ (gatherRun gs).2 = none := by
  induction gs with
  | nil => exact ⟨rfl, rfl⟩
  | cons g gs ih =>
    have hg : (updateGuildRun g).2 = none := h g (by simp)
    have ihr := ih (fun x hx => h x (by simp [hx]))
    simp only [gatherRun, hg]
    refine ⟨?_, ihr.2⟩
    rw [countFetch_append, countFetch_updateGuildRun, ihr.1, List.filter_cons]
    by_cases hr : guildReachesFetch g = true
    · rw [if_pos hr, if_pos hr, List.length_cons]
      omega
    · rw [if_neg hr, if_neg hr]
      omega

theorem countFetch_resolveEvents (t : TickEnv) :
    countFetch (resolveTargets t).2 = 0 := by
  unfold resolveTargets
  by_cases ht : truthyGuildId t.guildIdCfg
  · rw [if_pos ht]
    cases t.getGuildResult <;> rfl
  · rw [if_neg ht]
    rfl

/-- Counterexample to claim C1 as stated: in a tick with two permitted
targets the price fetch is performed twice, once inside each reconciliation,
not exactly once before the reconciliations. -/
theorem per_reconciliation_fetch_c1_counterexample :
    countFetch (tickRun ⟨none, none,
      [⟨"a", .ok ⟨true, false⟩, .success 1 1, .ok, .ok, .ok⟩,
       ⟨"b", .ok ⟨true, false⟩, .success 1 1, .ok, .ok, .ok⟩]⟩).1 = 2
    ∧ countFetch (tickRun ⟨none, none,
      [⟨"a", .ok ⟨true, false⟩, .success 1 1, .ok, .ok, .ok⟩,
       ⟨"b", .ok ⟨true, false⟩, .success 1 1, .ok, .ok, .ok⟩]⟩).1 ≠ 1 := by
  decide

/-- Claim C1 as amended: the price sample is acquired inside each
reconciliation, not once per tick: in any tick in which no reconciliation is
cancelled, the number of price-fetcher invocations equals the number of
resolved targets that pass the member and permission checks, and the
scheduler itself performs none of them. -/
theorem per_reconciliation_fetch_c1 (t : TickEnv)
    (h : ∀ g ∈ (resolveTargets t).1, (updateGuildRun g).2 = none) :
    countFetch (tickRun t).1 = ((resolveTargets t).1.filter guildReachesFetch).length := by
  cases hempty : (resolveTargets t).1.isEmpty with
  | true =>
    have h0 : (resolveTargets t).1 = [] := List.isEmpty_iff.mp hempty
    simp only [tickRun, hempty, if_true]
    rw [countFetch_append, countFetch_resolveEvents t, h0]
    rfl
  | false =>
    have hg := countFetch_gatherRun (resolveTargets t).1 h
    simp only [tickRun, hempty, Bool.false_eq_true, if_false]
    rw [countFetch_append, countFetch_resolveEvents t, hg.1]
    omega

/-- Witness for the amended C1: one permitted target, one fetch. -/
theorem per_reconciliation_fetch_c1_witness :
    countFetch (tickRun ⟨none, none,
      [⟨"a", .ok ⟨true, true⟩, .exhausted none, .ok, .ok, .ok⟩]⟩).1 = 1 := by
  have := per_reconciliation_fetch_c1
    ⟨none, none, [⟨"a", .ok ⟨true, true⟩, .exhausted none, .ok, .ok, .ok⟩]⟩ (by decide)
  exact this



/-- Claim C9: the loop-body boundary catches any `Exception` escaping the
tick, logs it at error severity, and the iteration still ends in the
inter-tick sleep with the loop continuing; a normal tick also ends in the
sleep and continues. -/
theorem tick_errors_contained_c9 :
    (∀ (tr : List Event) (iv : ℕ),
      loopStep (tr, none) iv = (tr ++ [Event.tickSleep iv], true))
    ∧ (∀ (tr : List Event) (e : PyExc) (iv : ℕ), isException e = true →
        loopStep (tr, some e) iv =
          (tr ++ [Event.log .error ("Updater loop error: " ++ excMsg e),
                  Event.tickSleep iv], true)) := by
  refine ⟨fun tr iv => rfl, fun tr e iv h => ?_⟩
  simp [loopStep, h]

/-- Witness for C9: a concrete tick that escapes with a `RuntimeError` is
logged and the loop continues into the sleep. -/
theorem tick_errors_contained_c9_witness :
    loopStep ([], some (.runtimeError "boom")) 60
      = ([Event.log .error "Updater loop error: boom", Event.tickSleep 60], true) :=
  tick_errors_contained_c9.2 [] (.runtimeError "boom") 60 rfl

theorem applyPresence_lastWrite (tr : List Event) :
    ∀ init : Option String,
      applyPresence init tr =
        (match (succWrites tr).getLast? with
         | some s => some s
         | none => init) := by
  induction tr with
  | nil => intro init; rfl
  | cons e tr ih =>
    intro init
    cases e with
    | presence s b =>
      cases b with
      | true =>
        have h1 : applyPresence init (Event.presence s true :: tr)
            = applyPresence (some s) tr := rfl
        have h2 : succWrites (Event.presence s true :: tr) = s :: succWrites tr := rfl
        rw [h1, h2, ih (some s)]
        cases hsw : succWrites tr with
        | nil => rfl
        | cons a l =>
          rw [List.getLast?_cons_cons]
          cases hgl : (a :: l).getLast? with
          | none => simp at hgl
          | some x => rfl
      | false => exact ih init
    | log lvl msg => exact ih init
    | fetchPriceCall => exact ih init
    | nickEdit n r b => exact ih init
    | tickSleep k => exact ih init

theorem presenceList_append (a b : List Event) :
    presenceList (a ++ b) = presenceList a ++ presenceList b :=
  List.filterMap_append _ _ _

theorem presenceList_successEvents (name : String) (ne : NickEditRes) (ps : PresenceRes)
    (p c : ℚ) : (presenceList (successEvents name ne ps p c)).length = 1 := by
  cases ne <;> cases ps <;> simp [successEvents, presenceList]

theorem presenceList_updateGuildRun_le (g : GuildEnv) :
    (presenceList (updateGuildRun g).1).length ≤ if guildReachesFetch g then 1 else 0 := by
  obtain ⟨name, member, fetch, ne, pf, ps⟩ := g
  cases member with
  | httpExc m => simp [updateGuildRun, guildReachesFetch, presenceList]
  | ok perms =>
    cases hb : (perms.change_nickname || perms.manage_nicknames) with
    | false => simp [updateGuildRun, guildReachesFetch, hb, presenceList]
    | true =>
      cases fetch with
      | success p c =>
        have h2 := presenceList_successEvents name ne ps p c
        simp only [updateGuildRun, hb, if_true, guildReachesFetch]
        rw [show Event.fetchPriceCall :: successEvents name ne ps p c
            = [Event.fetchPriceCall] ++ successEvents name ne ps p c from rfl,
          presenceList_append, List.length_append, h2,
          show presenceList [Event.fetchPriceCall] = [] from rfl]
        simp
      | exhausted le =>
        cases pf <;>
          simp [updateGuildRun, guildReachesFetch, hb, presenceList, presenceAttempt]
      | escaped e =>
        cases hie : isException e <;> cases pf <;>
          simp [updateGuildRun, guildReachesFetch, hb, hie, presenceList, presenceAttempt]

theorem presenceList_gatherRun_le (gs : List GuildEnv) :
    (presenceList (gatherRun gs).1).length ≤ (gs.filter guildReachesFetch).length := by
  induction gs with
  | nil => simp [gatherRun, presenceList]
  | cons g gs ih =>
    have hle := presenceList_updateGuildRun_le g
    cases hescape : (updateGuildRun g).2 with
    | some e =>
      simp only [gatherRun, hescape]
      rw [List.filter_cons]
      by_cases hr : guildReachesFetch g = true
      · rw [if_pos hr] at hle
        rw [if_pos hr, List.length_cons]
        omega
      · rw [if_neg hr] at hle
        rw [if_neg hr]
        omega
    | none =>
      simp only [gatherRun, hescape]
      rw [presenceList_append, List.length_append, List.filter_cons]
      by_cases hr : guildReachesFetch g = true
      · rw [if_pos hr] at hle
        rw [if_pos hr, List.length_cons]
        omega
      · rw [if_neg hr] at hle
        rw [if_neg hr]
        omega

theorem presenceList_resolveEvents (t : TickEnv) :
    presenceList (resolveTargets t).2 = [] := by
  unfold resolveTargets
  by_cases ht : truthyGuildId t.guildIdCfg
  · rw [if_pos ht]
    cases t.getGuildResult <;> rfl
  · rw [if_neg ht]
    rfl

/-- Claim C10: the status write is the single client-wide presence: each
reconciliation makes at most one presence call, a tick makes at most as many
presence calls as it has permitted targets, a successful presence write
overwrites the shared value so the last write wins, and a permitted target
whose fetch fails writes the degraded marker to that shared presence. -/
theorem global_presence_c10 :
    (∀ g : GuildEnv, (presenceList (updateGuildRun g).1).length ≤ 1)
    ∧ (∀ t : TickEnv,
        (presenceList (tickRun t).1).length
          ≤ ((resolveTargets t).1.filter guildReachesFetch).length)
    ∧ (∀ (init : Option String) (tr : List Event),
        applyPresence init tr =
          (match (succWrites tr).getLast? with
           | some s => some s
           | none => init))
    ∧ (∀ (name : String) (le : Option PyExc) (ne : NickEditRes) (ps : PresenceRes)
        (p : Perms), (p.change_nickname || p.manage_nicknames) = true →
        Event.presence "API error" true ∈
          (updateGuildRun ⟨name, .ok p, .exhausted le, ne, .ok, ps⟩).1) := by
  refine ⟨?_, ?_, fun init tr => applyPresence_lastWrite tr init, ?_⟩
  · intro g
    have h := presenceList_updateGuildRun_le g
    by_cases hr : guildReachesFetch g = true
    · rw [if_pos hr] at h
      exact h
    · rw [if_neg hr] at h
      omega
  · intro t
    cases hempty : (resolveTargets t).1.isEmpty with
    | true =>
      have h0 : (resolveTargets t).1 = [] := List.isEmpty_iff.mp hempty
      simp only [tickRun, hempty, if_true]
      rw [presenceList_append, presenceList_resolveEvents t, h0]
      simp [presenceList]
    | false =>
      simp only [tickRun, hempty, Bool.false_eq_true, if_false]
      rw [presenceList_append, List.length_append, presenceList_resolveEvents t]
      have := presenceList_gatherRun_le (resolveTargets t).1
      simpa using this
  · intro name le ne ps p h
    simp [updateGuildRun, h, presenceAttempt]

/-- Witness for C10: a permitted target with an exhausted fetch makes the
degraded-marker presence write. -/
theorem global_presence_c10_witness :
    Event.presence "API error" true ∈
      (updateGuildRun ⟨"g", .ok ⟨true, true⟩, .exhausted none, .ok, .ok, .ok⟩).1 :=
  global_presence_c10.2.2.2 "g" none .ok .ok ⟨true, true⟩ rfl

end XrpBot
